import Mathlib

/-!
Verification of the repository synchronization scheduler and credential
lifecycle engine of `src/server/bleep/src/periodic/remotes.rs`.

Durations are modelled in whole seconds (`Nat`); every duration appearing in
the subsystem is a whole number of seconds.  Asynchronous effects (channel
receives, HTTP calls, filesystem watches, task spawning) are modelled by
passing their observed outcomes as explicit arguments.
-/

namespace Bloop

/-- The fixed backoff schedule `POLL_INTERVAL_MINUTE` from `remotes.rs`
(1 min, 3 min, 10 min, 20 min, 30 min), in seconds. -/
def POLL_INTERVAL_MINUTE : List Nat := [60, 3 * 60, 10 * 60, 20 * 60, 30 * 60]

/-- Modelled from the spec: the backend tag of a `RepoRef` ("local filesystem
vs. remote-hosted"); `crate::repo::Backend` itself is outside the provided
sources.  Only `Local` is distinguished by the code under study. -/
inductive Backend
  | Local
  | Github
deriving DecidableEq

/-- `RepoRef`: opaque comparable identifier carrying a backend tag and a
path/URL (modelled as a string). -/
structure RepoRef where
  backend : Backend
  name : String
deriving DecidableEq

/-- Modelled from the spec: `SyncStatus` ("one of an enumerated set including
at least: Done, Syncing, Error, Removed/Uninitialized"); `crate::repo` is
outside the provided sources. -/
inductive SyncStatus
  | Done
  | Syncing
  | Error
  | Removed
  | Uninitialized
deriving DecidableEq

/-- Modelled from the spec: `SyncStatus::indexable()` is "true only for
statuses where continued monitoring is meaningful".  Continued monitoring is
meaningful for a repository that is fully indexed (`Done`) or currently being
brought up to date (`Syncing`); it is not for `Removed`/`Uninitialized`
(no longer or not yet tracked) nor for `Error`, which the spec classifies as
fatal-to-resource, requiring an external state change before the supervisor
respawns a monitor loop. -/
def SyncStatus.indexable : SyncStatus → Bool
  | .Done => true
  | .Syncing => true
  | _ => false

/-- The repository record fields read by this subsystem
(`disk_path`, `last_commit_unix_secs`, `sync_status`). -/
structure Repo where
  disk_path : String
  last_commit_unix_secs : Nat
  sync_status : SyncStatus
deriving DecidableEq

/-- `Poller` state.  The `debouncer` field records whether a live filesystem
watch handle is held (the handle itself carries no further information used
by the logic).  The `git_events` channel is modelled as an explicit event
list passed to `git_change`. -/
structure Poller where
  poll_interval_index : Nat
  minimum_interval_index : Nat
  debouncer : Option Unit
deriving DecidableEq

/-- `Poller::interval`: `POLL_INTERVAL_MINUTE[self.poll_interval_index]`.
Rust indexing panics out of bounds; here `getD _ 0` is total, and the safety
claim proves the index is always in bounds. -/
def Poller.interval (p : Poller) : Nat :=
  POLL_INTERVAL_MINUTE.getD p.poll_interval_index 0

/-- `Poller::increase_interval`: clamp the index to the last schedule entry
and return the (state, new interval) pair. -/
def Poller.increase_interval (p : Poller) : Poller × Nat :=
  let q := { p with
    poll_interval_index := min (p.poll_interval_index + 1) (POLL_INTERVAL_MINUTE.length - 1) }
  (q, q.interval)

/-- `Poller::reset_interval`: return the index to the configured floor. -/
def Poller.reset_interval (p : Poller) : Poller × Nat :=
  let q := { p with poll_interval_index := p.minimum_interval_index }
  (q, q.interval)

/-- `Poller::jittery_interval`: the sampled jitter is passed explicitly; the
sampler draws uniformly from the half-open range
`[10, 30 + interval_seconds / 2)` (see `jitterInRange`). -/
def Poller.jittery_interval (p : Poller) (jitter : Nat) : Nat :=
  p.interval + jitter

/-- The support of `Uniform::new(10, 30 + poll_interval.as_secs() / 2)`:
a half-open integer range. -/
def jitterInRange (p : Poller) (jitter : Nat) : Prop :=
  10 ≤ jitter ∧ jitter < 30 + p.interval / 2

/-- `Poller::start`.  External observations are passed explicitly:
`git_path` is the result of reading `disk_path` from the shared repo pool
(`None` when the record has disappeared), and `watch_ok` is whether
`watcher().watch(..)` succeeded.  In the source, a watch failure flows
through `.map_err(log).ok()?`, so it returns `None` from `start` exactly
like a missing pool record does. -/
def Poller.start (disable_fsevents : Bool) (reporef : RepoRef)
    (git_path : Option String) (watch_ok : Bool) : Option Poller :=
  if disable_fsevents = false ∧ reporef.backend = Backend.Local then
    match git_path with
    | none => none
    | some _ =>
      if watch_ok then
        some { poll_interval_index := POLL_INTERVAL_MINUTE.length - 1,
               minimum_interval_index := POLL_INTERVAL_MINUTE.length - 1,
               debouncer := some () }
      else none
  else
    some { poll_interval_index := 0, minimum_interval_index := 0, debouncer := none }

/-- `check_repo`: project `(last_commit_unix_secs, sync_status)` out of a pool
read result. -/
def check_repo (r : Option Repo) : Option (Nat × SyncStatus) :=
  r.map fun repo => (repo.last_commit_unix_secs, repo.sync_status)

/-- Which backoff adjustment one monitor-loop iteration performed. -/
inductive PollAction
  | increased
  | reset
deriving DecidableEq

/-- Result of one iteration of `periodic_repo_poll`'s loop body:
either the loop returns (`exit`), or it proceeds to the next wait with an
updated poller and the action taken. -/
inductive IterResult
  | exit
  | continued (p : Poller) (a : PollAction)
deriving DecidableEq

/-- One iteration of the monitor loop in `periodic_repo_poll`, from the first
`check_repo` up to the backoff adjustment.  `pre` and `post` are the pool
reads before and after the sync; `sync_ok` is the outcome of
`block_until_synced`.  Note that the source's comparison
`last_updated == updated && status == Done` uses the shadowed `status`
rebound after the sync, i.e. the post-sync status. -/
def pollIteration (p : Poller) (pre post : Option Repo) (sync_ok : Bool) : IterResult :=
  match check_repo pre with
  | none => .exit
  | some (last_updated, status) =>
    if status.indexable = false then .exit
    else if sync_ok = false then .exit
    else
      match check_repo post with
      | none => .exit
      | some (updated, status2) =>
        if status2.indexable = false then .exit
        else if last_updated = updated ∧ status2 = SyncStatus.Done then
          .continued (p.increase_interval).1 .increased
        else
          .continued (p.reset_interval).1 .reset

/-- A spawned monitor-loop task handle as the fleet supervisor sees it:
an identity plus the `is_finished()` observation made during the scan. -/
structure TaskHandle where
  id : Nat
  is_finished : Bool
deriving DecidableEq

/-- The per-entry body of the `scan_async` closure in `check_repo_updates`:
an occupied entry is removed when its task is observed finished; a vacant
entry spawns a new task only when the status is indexable. -/
def scanEntry (entry : Option TaskHandle) (indexable : Bool)
    (fresh : TaskHandle) : Option TaskHandle :=
  match entry with
  | some h => if h.is_finished then none else some h
  | none => if indexable then some fresh else none

/-- One full supervisor scan over the repo pool: each pool entry's key is
passed through `scanEntry` (the `scc::HashMap` entry API makes each per-key
step atomic); keys not in the pool keep their table entries. -/
def scanTable (tbl : RepoRef → Option TaskHandle) (pool : List (RepoRef × Repo))
    (fresh : RepoRef → TaskHandle) : RepoRef → Option TaskHandle :=
  List.foldl
    (fun t kr => fun k =>
      if k = kr.1 then scanEntry (t kr.1) kr.2.sync_status.indexable (fresh kr.1) else t k)
    tbl pool

/-- A shallow model of `serde_json::Value` keeping what `update_credentials`
distinguishes: objects, numbers representable as `u64`, and everything else. -/
inductive JsonValue
  | object (fields : List (String × JsonValue))
  | numU64 (n : Nat)
  | otherScalar

/-- `serde_json::Value::as_u64`. -/
def JsonValue.as_u64 : JsonValue → Option Nat
  | .numU64 n => some n
  | _ => none

/-- `serde_json::Map::get` (keys are unique in a JSON object). -/
def getField : List (String × JsonValue) → String → Option JsonValue
  | [], _ => none
  | (k, v) :: rest, key => if k = key then some v else getField rest key

/-- Whether a JSON value is an object. -/
def JsonValue.isObject : JsonValue → Bool
  | .object _ => true
  | _ => false

/-- Outcome of `keyset.verify(&creds.access_token, &verifier)`. -/
inductive VerifyResult
  | ok (v : JsonValue)
  | err

/-- The `rotate_access_key` computation in `update_credentials` (OAuth
branch).  `none` models the early `return` taken when the verified object has
no `u64` `"exp"` claim; `some b` gives the rotation flag.  The source compares
`expiry_time - 600s < now` over `SystemTime`, which for `expiry_time =
EPOCH + exp` and `now = EPOCH + now_secs` is `exp < now_secs + 600` over the
integers. -/
def rotateDecision (vr : VerifyResult) (now : Nat) : Option Bool :=
  match vr with
  | .ok (.object claims) =>
    match (getField claims "exp").bind JsonValue.as_u64 with
    | none => none
    | some exp => some (decide (exp < now + 600))
  | .ok _ => some true
  | .err => some true

/-- The OAuth token bundle from `crate::remotes::CognitoGithubTokenBundle`. -/
structure CognitoGithubTokenBundle where
  access_token : String
  refresh_token : String
  github_access_token : String
deriving DecidableEq

/-- Outcome of the refresh-endpoint exchange as the engine observes it:
`reqErr` is a failed `reqwest::get`; `okBody d` is a successful HTTP
response, with `d` the result of reading the body and decoding it as
`RefreshedAccessToken` (`none` covers both an unreadable body and an
undecodable payload — the two flow into the same `Err` arm). -/
inductive RefreshHttpResult
  | reqErr
  | okBody (decoded : Option String)
deriving DecidableEq

/-- Observable effects of one rotation attempt: the credential slot after the
attempt, how many times `store()` ran, which bundle (if any) was handed to
`set_github`, and whether control reached the validation section that follows
rotation in `update_credentials` (false = early `return`). -/
structure RotationOutcome where
  github : Option CognitoGithubTokenBundle
  store_calls : Nat
  persisted_bundle : Option CognitoGithubTokenBundle
  continued_to_validation : Bool
deriving DecidableEq

/-- The rotation block of `update_credentials` (executed when
`rotate_access_key` is true), given the held OAuth bundle and the observed
refresh-endpoint outcome.  On an undecodable body the source removes the
GitHub credentials (`remove(..).is_some()` then `store()`) and returns; on
success it installs a new bundle keeping the old refresh and GitHub tokens,
stores it, and falls through to validation. -/
def rotateOnce (creds : CognitoGithubTokenBundle) (http : RefreshHttpResult) :
    RotationOutcome :=
  match http with
  | .reqErr =>
    { github := some creds, store_calls := 0, persisted_bundle := none,
      continued_to_validation := false }
  | .okBody none =>
    { github := none, store_calls := 1, persisted_bundle := none,
      continued_to_validation := false }
  | .okBody (some tok) =>
    let newb : CognitoGithubTokenBundle :=
      { access_token := tok, refresh_token := creds.refresh_token,
        github_access_token := creds.github_access_token }
    { github := some newb, store_calls := 1, persisted_bundle := some newb,
      continued_to_validation := true }

/-- `loop { futures::pending!() }` observed through `fuel` polls of the
future: every poll yields `Pending`, so no number of polls produces a
value. -/
def pendingLoop : Nat → Option Unit
  | 0 => none
  | n + 1 => pendingLoop n

/-- `Poller::git_change` observed through `fuel` polls: with a live debouncer
it resolves as soon as the `git_events` channel (modelled by the explicit
`events` list) has delivered an event; without one it runs
`loop { futures::pending!() }`. -/
def Poller.git_change (p : Poller) (events : List Unit) (fuel : Nat) : Option Unit :=
  match p.debouncer with
  | some _ => events.head?.map fun _ => ()
  | none => pendingLoop fuel

/-- Which arm of the `tokio::select!` in `periodic_repo_poll` fires. -/
inductive RaceWinner
  | timer
  | gitEvent
deriving DecidableEq

/-- The select outcome observed when the jittered timer (which always
completes) fires after the `git_change` future has been polled `fuel` times:
a still-pending `git_change` loses the race. -/
def monitorTrigger (p : Poller) (events : List Unit) (fuel : Nat) : RaceWinner :=
  match p.git_change events fuel with
  | some _ => .gitEvent
  | none => .timer

/-- The operations a monitor loop performs on its poller.  `readInterval` and
`readJittery` take `&self` only and leave the state unchanged. -/
inductive PollerOp
  | inc
  | reset
  | readInterval
  | readJittery
deriving DecidableEq

/-- State effect of one poller operation. -/
def applyOp (p : Poller) : PollerOp → Poller
  | .inc => (p.increase_interval).1
  | .reset => (p.reset_interval).1
  | .readInterval => p
  | .readJittery => p

/-- Run a sequence of poller operations. -/
def runOps (p : Poller) (ops : List PollerOp) : Poller :=
  List.foldl applyOp p ops

/-- Both indices of a poller are in bounds for the schedule. -/
def PollerInv (p : Poller) : Prop :=
  p.poll_interval_index < POLL_INTERVAL_MINUTE.length ∧
    p.minimum_interval_index < POLL_INTERVAL_MINUTE.length

lemma sched_len : POLL_INTERVAL_MINUTE.length = 5 := rfl

lemma sched_ge_60 : ∀ i, i < POLL_INTERVAL_MINUTE.length → 60 ≤ POLL_INTERVAL_MINUTE.getD i 0 := by
  decide

lemma runOps_cons (p : Poller) (o : PollerOp) (ops : List PollerOp) :
    runOps p (o :: ops) = runOps (applyOp p o) ops := rfl

lemma increase_idx (p : Poller) :
    ((p.increase_interval).1).poll_interval_index
      = min (p.poll_interval_index + 1) (POLL_INTERVAL_MINUTE.length - 1) := rfl

lemma applyOp_inc_idx (p : Poller) :
    (applyOp p PollerOp.inc).poll_interval_index
      = min (p.poll_interval_index + 1) (POLL_INTERVAL_MINUTE.length - 1) := rfl

lemma increase_min (p : Poller) :
    ((p.increase_interval).1).minimum_interval_index = p.minimum_interval_index := rfl

lemma reset_idx (p : Poller) :
    ((p.reset_interval).1).poll_interval_index = p.minimum_interval_index := rfl

lemma runOps_inc_idx_le :
    ∀ (n : Nat) (p : Poller),
      p.poll_interval_index ≤ POLL_INTERVAL_MINUTE.length - 1 →
      (runOps p (List.replicate n PollerOp.inc)).poll_interval_index
        ≤ POLL_INTERVAL_MINUTE.length - 1
  | 0, p, h => h
  | n + 1, p, _ => by
    rw [List.replicate_succ, runOps_cons]
    exact runOps_inc_idx_le n _ (by rw [applyOp_inc_idx]; exact Nat.min_le_right _ _)

lemma runOps_inc_min :
    ∀ (n : Nat) (p : Poller),
      (runOps p (List.replicate n PollerOp.inc)).minimum_interval_index
        = p.minimum_interval_index
  | 0, _ => rfl
  | n + 1, p => by
    rw [List.replicate_succ, runOps_cons]
    rw [runOps_inc_min n _]
    exact increase_min p

lemma start_cases (d : Bool) (r : RepoRef) (g : Option String) (w : Bool) (p : Poller)
    (h : Poller.start d r g w = some p) :
    p = ⟨0, 0, none⟩ ∨
      p = ⟨POLL_INTERVAL_MINUTE.length - 1, POLL_INTERVAL_MINUTE.length - 1, some ()⟩ := by
  obtain ⟨b, nm⟩ := r
  cases d <;> cases b <;> cases w <;> cases g <;> simp_all [Poller.start]

lemma applyOp_inv (p : Poller) (o : PollerOp) (h : PollerInv p) : PollerInv (applyOp p o) := by
  obtain ⟨h1, h2⟩ := h
  cases o with
  | inc =>
    refine ⟨?_, ?_⟩
    · rw [show (applyOp p .inc).poll_interval_index
          = min (p.poll_interval_index + 1) (POLL_INTERVAL_MINUTE.length - 1) from rfl]
      rw [sched_len] at h1 ⊢
      omega
    · exact h2
  | reset => exact ⟨h2, h2⟩
  | readInterval => exact ⟨h1, h2⟩
  | readJittery => exact ⟨h1, h2⟩

lemma runOps_inv :
    ∀ (ops : List PollerOp) (p : Poller), PollerInv p → PollerInv (runOps p ops)
  | [], _, h => h
  | o :: ops, p, h => by
    rw [runOps_cons]
    exact runOps_inv ops _ (applyOp_inv p o h)

lemma interval_ge_60 (p : Poller) (h : PollerInv p) : 60 ≤ p.interval :=
  sched_ge_60 p.poll_interval_index h.1

/-- C6: `increase_interval()` never advances `poll_interval_index` past the
last entry of the backoff schedule, regardless of how many successive calls
are made; a call at index N-1 leaves the index at N-1. -/
theorem claim_increase_interval_clamped :
    (∀ (p : Poller) (n : Nat),
        (runOps p (List.replicate (n + 1) PollerOp.inc)).poll_interval_index
          ≤ POLL_INTERVAL_MINUTE.length - 1) ∧
    (∀ p : Poller,
        p.poll_interval_index = POLL_INTERVAL_MINUTE.length - 1 →
        ((p.increase_interval).1).poll_interval_index = POLL_INTERVAL_MINUTE.length - 1) := by
  constructor
  · intro p n
    rw [List.replicate_succ, runOps_cons]
    exact runOps_inc_idx_le n _ (by rw [applyOp_inc_idx]; exact Nat.min_le_right _ _)
  · intro p h
    rw [increase_idx, h, sched_len]
    decide

/-- Witness for C6 at a poller sitting at the last schedule index. -/
theorem claim_increase_interval_clamped_witness :
    (Poller.mk 4 0 none).poll_interval_index = POLL_INTERVAL_MINUTE.length - 1 ∧
      (((Poller.mk 4 0 none).increase_interval).1).poll_interval_index
        = POLL_INTERVAL_MINUTE.length - 1 :=
  ⟨rfl, claim_increase_interval_clamped.2 ⟨4, 0, none⟩ rfl⟩

/-- C7: after any sequence of `increase_interval()` calls, `reset_interval()`
returns `poll_interval_index` to the poller's configured floor
`minimum_interval_index`; construction sets that floor to 0 for a poller
without a live filesystem watch and to N-1 for a poller with one. -/
theorem claim_reset_interval_floor :
    (∀ (p : Poller) (n : Nat),
        (((runOps p (List.replicate n PollerOp.inc)).reset_interval).1).poll_interval_index
          = p.minimum_interval_index) ∧
    (∀ (d : Bool) (r : RepoRef) (g : Option String) (w : Bool) (p : Poller),
        Poller.start d r g w = some p →
        (p.debouncer = none → p.minimum_interval_index = 0) ∧
        (p.debouncer.isSome → p.minimum_interval_index = POLL_INTERVAL_MINUTE.length - 1)) := by
  constructor
  · intro p n
    rw [reset_idx, runOps_inc_min n p]
  · intro d r g w p h
    rcases start_cases d r g w p h with h0 | h1
    · subst h0
      exact ⟨fun _ => rfl, by intro hs; simp at hs⟩
    · subst h1
      exact ⟨by intro hs; simp at hs, fun _ => rfl⟩

/-- Witness for C7 at two concrete constructions: a remote repository
(no watch, floor 0) and a locally watched repository (floor N-1). -/
theorem claim_reset_interval_floor_witness :
    (Poller.mk 0 0 none).minimum_interval_index = 0 ∧
      (Poller.mk 4 4 (some ())).minimum_interval_index = POLL_INTERVAL_MINUTE.length - 1 :=
  ⟨(claim_reset_interval_floor.2 true ⟨Backend.Github, "r"⟩ none false ⟨0, 0, none⟩ rfl).1 rfl,
   (claim_reset_interval_floor.2 false ⟨Backend.Local, "r"⟩ (some "p") true
      ⟨4, 4, some ()⟩ rfl).2 rfl⟩

/-- C8: for every jitter value the uniform sampler can draw,
`jittery_interval()` is at least the base interval and strictly less than
base + 30 + base/2 seconds. -/
theorem claim_jittery_interval_bounds :
    ∀ (p : Poller) (j : Nat), jitterInRange p j →
      p.interval ≤ p.jittery_interval j ∧
        p.jittery_interval j < p.interval + 30 + p.interval / 2 := by
  intro p j h
  obtain ⟨h1, h2⟩ := h
  unfold Poller.jittery_interval
  omega

/-- Witness for C8 at the first schedule entry with jitter 15. -/
theorem claim_jittery_interval_bounds_witness :
    jitterInRange ⟨0, 0, none⟩ 15 ∧
      (Poller.mk 0 0 none).interval ≤ (Poller.mk 0 0 none).jittery_interval 15 ∧
        (Poller.mk 0 0 none).jittery_interval 15
          < (Poller.mk 0 0 none).interval + 30 + (Poller.mk 0 0 none).interval / 2 :=
  ⟨by constructor <;> decide,
   (claim_jittery_interval_bounds ⟨0, 0, none⟩ 15 (by constructor <;> decide)).1,
   (claim_jittery_interval_bounds ⟨0, 0, none⟩ 15 (by constructor <;> decide)).2⟩

lemma pendingLoop_none : ∀ n, pendingLoop n = none
  | 0 => rfl
  | n + 1 => pendingLoop_none n

/-- C9: for a poller without a filesystem watch, `git_change()` never
resolves — no number of polls of the future produces a value — so the
`tokio::select!` race is always won by the jittered timer and no
change-driven reindexing is ever triggered. -/
theorem claim_git_change_never_resolves :
    ∀ p : Poller, p.debouncer = none →
      (∀ (events : List Unit) (fuel : Nat), p.git_change events fuel = none) ∧
      (∀ (events : List Unit) (fuel : Nat), monitorTrigger p events fuel = RaceWinner.timer) := by
  intro p h
  have key : ∀ (events : List Unit) (fuel : Nat), p.git_change events fuel = none := by
    intro events fuel
    unfold Poller.git_change
    rw [h]
    exact pendingLoop_none fuel
  refine ⟨key, ?_⟩
  intro events fuel
  unfold monitorTrigger
  rw [key events fuel]

/-- Witness for C9: a watchless poller with queued events still yields the
timer as race winner after several polls. -/
theorem claim_git_change_never_resolves_witness :
    (Poller.mk 0 0 none).git_change [(), ()] 7 = none ∧
      monitorTrigger ⟨0, 0, none⟩ [(), ()] 7 = RaceWinner.timer :=
  ⟨(claim_git_change_never_resolves ⟨0, 0, none⟩ rfl).1 [(), ()] 7,
   (claim_git_change_never_resolves ⟨0, 0, none⟩ rfl).2 [(), ()] 7⟩

/-- C10: from any constructed poller, any sequence of `increase_interval`,
`reset_interval`, `interval` and `jittery_interval` calls keeps both indices
within bounds of the fixed schedule (so the table indexing in `interval()` is
in bounds) and keeps the uniform sampler's lower bound 10 strictly below its
upper bound 30 + base/2 (every schedule entry being at least 60 seconds), so
neither operation can panic. -/
theorem claim_poller_indices_safe :
    ∀ (d : Bool) (r : RepoRef) (g : Option String) (w : Bool) (p : Poller)
      (ops : List PollerOp),
      Poller.start d r g w = some p →
      PollerInv (runOps p ops) ∧ 10 < 30 + (runOps p ops).interval / 2 := by
  intro d r g w p ops h
  have hp : PollerInv p := by
    rcases start_cases d r g w p h with h0 | h1
    · subst h0; exact ⟨by decide, by decide⟩
    · subst h1; exact ⟨by decide, by decide⟩
  have hinv : PollerInv (runOps p ops) := runOps_inv ops p hp
  refine ⟨hinv, ?_⟩
  have h60 : 60 ≤ (runOps p ops).interval := interval_ge_60 _ hinv
  omega

/-- Witness for C10: a freshly started remote-repository poller after an
increase/reset/read sequence. -/
theorem claim_poller_indices_safe_witness :
    Poller.start true ⟨Backend.Github, "r"⟩ none false = some ⟨0, 0, none⟩ ∧
      (PollerInv (runOps ⟨0, 0, none⟩
          [PollerOp.inc, PollerOp.readJittery, PollerOp.inc, PollerOp.reset]) ∧
        10 < 30 + (runOps ⟨0, 0, none⟩
          [PollerOp.inc, PollerOp.readJittery, PollerOp.inc, PollerOp.reset]).interval / 2) :=
  ⟨rfl,
   claim_poller_indices_safe true ⟨Backend.Github, "r"⟩ none false ⟨0, 0, none⟩
     [PollerOp.inc, PollerOp.readJittery, PollerOp.inc, PollerOp.reset] rfl⟩

lemma scanTable_not_mem :
    ∀ (pool : List (RepoRef × Repo)) (tbl : RepoRef → Option TaskHandle)
      (fresh : RepoRef → TaskHandle) (k : RepoRef),
      k ∉ pool.map Prod.fst → scanTable tbl pool fresh k = tbl k
  | [], _, _, _, _ => rfl
  | kr :: rest, tbl, fresh, k, h => by
    rw [List.map_cons, List.mem_cons] at h
    push_neg at h
    obtain ⟨h1, h2⟩ := h
    show scanTable _ rest fresh k = tbl k
    rw [scanTable_not_mem rest _ fresh k h2]
    simp [h1]

lemma scanTable_lookup :
    ∀ (pool : List (RepoRef × Repo)) (tbl : RepoRef → Option TaskHandle)
      (fresh : RepoRef → TaskHandle) (k : RepoRef) (repo : Repo),
      (pool.map Prod.fst).Nodup → (k, repo) ∈ pool →
      scanTable tbl pool fresh k = scanEntry (tbl k) repo.sync_status.indexable (fresh k)
  | [], _, _, _, _, _, hmem => absurd hmem (List.not_mem_nil _)
  | (k0, r0) :: rest, tbl, fresh, k, repo, hnd, hmem => by
    rw [List.map_cons, List.nodup_cons] at hnd
    obtain ⟨hk0, hrest⟩ := hnd
    rcases List.mem_cons.mp hmem with heq | hmem2
    · obtain ⟨hk, hr⟩ := Prod.mk.injEq .. ▸ heq
      subst hk
      subst hr
      show scanTable _ rest fresh k = _
      rw [scanTable_not_mem rest _ fresh k hk0]
      simp
    · have hk : k ≠ k0 := by
        intro hkk
        have hin : k ∈ rest.map Prod.fst := by
          simp only [List.mem_map]
          exact ⟨(k, repo), hmem2, rfl⟩
        exact hk0 (hkk ▸ hin)
      show scanTable _ rest fresh k = _
      rw [scanTable_lookup rest _ fresh k repo hrest hmem2]
      simp [hk]

/-- C1: during a supervisor scan, each pool key's table entry goes through
`scanEntry` atomically; the table (a map) holds at most one handle per
`RepoRef`, an occupied entry is removed only after its task is observed
finished (and is otherwise kept, never replaced), and a fresh task is
inserted only when the entry is vacant and the repository's status is
indexable. -/
theorem claim_fleet_table_at_most_one :
    ∀ (tbl : RepoRef → Option TaskHandle) (pool : List (RepoRef × Repo))
      (fresh : RepoRef → TaskHandle) (k : RepoRef) (repo : Repo),
      (pool.map Prod.fst).Nodup → (k, repo) ∈ pool →
      (∀ h, tbl k = some h → h.is_finished = false →
          scanTable tbl pool fresh k = some h) ∧
      (∀ h, tbl k = some h → scanTable tbl pool fresh k = none →
          h.is_finished = true) ∧
      (∀ h, tbl k = some h →
          scanTable tbl pool fresh k = some h ∨ scanTable tbl pool fresh k = none) ∧
      (tbl k = none →
          (scanTable tbl pool fresh k = some (fresh k) ↔
            repo.sync_status.indexable = true)) := by
  intro tbl pool fresh k repo hnd hmem
  rw [scanTable_lookup pool tbl fresh k repo hnd hmem]
  refine ⟨?_, ?_, ?_, ?_⟩
  · intro h hh hf
    rw [hh]
    simp [scanEntry, hf]
  · intro h hh hnone
    rw [hh] at hnone
    cases hf : h.is_finished with
    | false => simp [scanEntry, hf] at hnone
    | true => rfl
  · intro h hh
    rw [hh]
    cases hf : h.is_finished with
    | false => left; simp [scanEntry, hf]
    | true => right; simp [scanEntry, hf]
  · intro hh
    rw [hh]
    cases hi : repo.sync_status.indexable with
    | false => simp [scanEntry, hi]
    | true => simp [scanEntry, hi]

/-- Witness for C1: one-entry pool with a vacant table and an indexable
repository. -/
theorem claim_fleet_table_at_most_one_witness :
    (([((⟨Backend.Github, "a"⟩ : RepoRef), (⟨"d", 0, SyncStatus.Done⟩ : Repo))].map
        Prod.fst).Nodup) ∧
      ((⟨Backend.Github, "a"⟩ : RepoRef), (⟨"d", 0, SyncStatus.Done⟩ : Repo)) ∈
        [((⟨Backend.Github, "a"⟩ : RepoRef), (⟨"d", 0, SyncStatus.Done⟩ : Repo))] ∧
      (scanTable (fun _ => none)
          [((⟨Backend.Github, "a"⟩ : RepoRef), (⟨"d", 0, SyncStatus.Done⟩ : Repo))]
          (fun _ => ⟨1, false⟩) ⟨Backend.Github, "a"⟩ = some ⟨1, false⟩ ↔
        (SyncStatus.Done).indexable = true) :=
  ⟨List.nodup_singleton _, List.mem_singleton.mpr rfl,
   (claim_fleet_table_at_most_one (fun _ => none)
      [((⟨Backend.Github, "a"⟩ : RepoRef), (⟨"d", 0, SyncStatus.Done⟩ : Repo))]
      (fun _ => ⟨1, false⟩) ⟨Backend.Github, "a"⟩ ⟨"d", 0, SyncStatus.Done⟩
      (List.nodup_singleton _) (List.mem_singleton.mpr rfl)).2.2.2 rfl⟩

/-- C2 counterexample: an iteration whose pre-sync pair is `(5, Syncing)` and
post-sync pair is `(5, Done)` — the pairs differ, so the claim requires
`reset_interval()`, but the code compares only the timestamps and the
(shadowed) post-sync status and calls `increase_interval()`. -/
theorem claim_backoff_decision_counterexample :
    pollIteration ⟨0, 0, none⟩ (some ⟨"d", 5, SyncStatus.Syncing⟩)
        (some ⟨"d", 5, SyncStatus.Done⟩) true
      = IterResult.continued ⟨1, 0, none⟩ PollAction.increased ∧
      ((5 : Nat), SyncStatus.Syncing) ≠ ((5 : Nat), SyncStatus.Done) := by
  constructor
  · rfl
  · decide

/-- C2 (amended): in an iteration that passes both indexability checks and a
successful sync, the loop calls `increase_interval()` exactly when
`last_updated = updated` and the post-sync status is `Done` (the pre-sync
status is not consulted by the comparison), and otherwise calls
`reset_interval()`; in particular `(T, Done)` before and after yields
`increase_interval()`. -/
theorem claim_backoff_decision_amended :
    ∀ (p : Poller) (pre post : Repo) (sync_ok : Bool),
      pre.sync_status.indexable = true → sync_ok = true →
      post.sync_status.indexable = true →
      pollIteration p (some pre) (some post) sync_ok =
        (if pre.last_commit_unix_secs = post.last_commit_unix_secs ∧
            post.sync_status = SyncStatus.Done
         then IterResult.continued (p.increase_interval).1 PollAction.increased
         else IterResult.continued (p.reset_interval).1 PollAction.reset) := by
  intro p pre post sync_ok h1 h2 h3
  subst h2
  unfold pollIteration check_repo
  simp [h1, h3]

/-- Witness for C2 (amended): `(7, Done)` before and after a successful
sync. -/
theorem claim_backoff_decision_amended_witness :
    SyncStatus.Done.indexable = true ∧
      pollIteration ⟨0, 0, none⟩ (some ⟨"d", 7, SyncStatus.Done⟩)
          (some ⟨"d", 7, SyncStatus.Done⟩) true =
        (if (7 : Nat) = 7 ∧ SyncStatus.Done = SyncStatus.Done
         then IterResult.continued ((Poller.mk 0 0 none).increase_interval).1
                PollAction.increased
         else IterResult.continued ((Poller.mk 0 0 none).reset_interval).1
                PollAction.reset) :=
  ⟨rfl,
   claim_backoff_decision_amended ⟨0, 0, none⟩ ⟨"d", 7, SyncStatus.Done⟩
     ⟨"d", 7, SyncStatus.Done⟩ true rfl rfl rfl⟩

/-- C3 counterexample: for a local-backend repository whose pool record is
present, a watch failure makes `Poller::start` return `none` (the `.ok()?`
aborts construction) instead of a timer-polling poller. -/
theorem claim_watch_failure_counterexample :
    Poller.start false ⟨Backend.Local, "r"⟩ (some "/x/.git") false = none ∧
      (some "/x/.git" : Option String) ≠ none := by
  constructor
  · rfl
  · simp

/-- C3 (amended): `Poller::start` returns `none` exactly when the repository
is watch-eligible (fsevents enabled and local backend) and either the pool
record has disappeared or establishing the watch failed — so a watch failure
is fatal to this construction attempt; repositories that are not
watch-eligible get a watchless poller polling from index 0. -/
theorem claim_poller_start_amended :
    ∀ (d : Bool) (r : RepoRef) (g : Option String) (w : Bool),
      (Poller.start d r g w = none ↔
        d = false ∧ r.backend = Backend.Local ∧ (g = none ∨ w = false)) ∧
      (∀ p, Poller.start d r g w = some p → p.debouncer = none →
        p.poll_interval_index = 0 ∧ p.minimum_interval_index = 0) := by
  intro d r g w
  constructor
  · obtain ⟨b, nm⟩ := r
    cases d <;> cases b <;> cases w <;> cases g <;> simp [Poller.start]
  · intro p h hd
    rcases start_cases _ _ _ _ p h with h0 | h1
    · subst h0
      exact ⟨rfl, rfl⟩
    · subst h1
      simp at hd

/-- Witness for C3 (amended): a remote repository gets a watchless poller
with both indices 0. -/
theorem claim_poller_start_amended_witness :
    Poller.start true ⟨Backend.Github, "r"⟩ none false = some ⟨0, 0, none⟩ ∧
      (Poller.mk 0 0 none).poll_interval_index = 0 ∧
        (Poller.mk 0 0 none).minimum_interval_index = 0 :=
  ⟨rfl,
   (claim_poller_start_amended true ⟨Backend.Github, "r"⟩ none false).2
     ⟨0, 0, none⟩ rfl rfl⟩

lemma getField_head (v : JsonValue) (rest : List (String × JsonValue)) (key : String) :
    getField ((key, v) :: rest) key = some v := by
  simp [getField]

/-- C4: with the OAuth policy enabled, rotation is attempted iff the key-set
verification errors, returns non-object claim material, or the verified
object carries a numeric `"exp"` claim strictly within 600 seconds of the
current time; in particular an expiry 601 seconds in the future triggers no
rotation on that cycle and 599 seconds does. -/
theorem claim_rotation_trigger :
    ∀ (vr : VerifyResult) (now : Nat),
      (rotateDecision vr now = some true ↔
        vr = VerifyResult.err ∨
        (∃ v, vr = VerifyResult.ok v ∧ v.isObject = false) ∨
        (∃ fields exp, vr = VerifyResult.ok (JsonValue.object fields) ∧
          (getField fields "exp").bind JsonValue.as_u64 = some exp ∧
          exp < now + 600)) ∧
      rotateDecision
          (VerifyResult.ok (JsonValue.object [("exp", JsonValue.numU64 (now + 601))])) now
        = some false ∧
      rotateDecision
          (VerifyResult.ok (JsonValue.object [("exp", JsonValue.numU64 (now + 599))])) now
        = some true := by
  intro vr now
  refine ⟨?_, ?_, ?_⟩
  · cases vr with
    | err => simp [rotateDecision]
    | ok v =>
      cases v with
      | object fields =>
        cases hf : (getField fields "exp").bind JsonValue.as_u64 with
        | none => simp [rotateDecision, hf, JsonValue.isObject]
        | some exp => simp [rotateDecision, hf, JsonValue.isObject]
      | numU64 n => simp [rotateDecision, JsonValue.isObject]
      | otherScalar => simp [rotateDecision, JsonValue.isObject]
  · have h1 : (getField [("exp", JsonValue.numU64 (now + 601))] "exp").bind
        JsonValue.as_u64 = some (now + 601) := by
      rw [getField_head]
      rfl
    simp [rotateDecision, h1]
  · have h1 : (getField [("exp", JsonValue.numU64 (now + 599))] "exp").bind
        JsonValue.as_u64 = some (now + 599) := by
      rw [getField_head]
      rfl
    simp [rotateDecision, h1]

/-- C5: whenever the refresh endpoint yields a successful HTTP response whose
body cannot be decoded as a token payload, the engine removes the stored
GitHub credentials and persists the removal with exactly one `store()`, does
not persist any new bundle, and returns from the cycle without reaching the
validation step (no retry). -/
theorem claim_refresh_failure_removes_credentials :
    ∀ creds : CognitoGithubTokenBundle,
      rotateOnce creds (RefreshHttpResult.okBody none) =
        { github := none, store_calls := 1, persisted_bundle := none,
          continued_to_validation := false } := by
  intro creds
  rfl

end Bloop
